import Mathlib

/-!
Verification of the `Stock` data-access class of `enyquist/stock_predictions`
(`src/utils/functions.py`), a fetch-then-parse pipeline that reshapes
Yahoo-Finance JSON payloads into a merged price/dividend table and a flat
statistics mapping.

Embedding choices:
  * Epoch timestamps are `Nat` (seconds); `datetime.fromtimestamp` depends on
    the local time zone of the executing process, modelled by an explicit
    offset `tz : Int` (seconds east of UTC) threaded through the functions.
  * `strftime "%m/%d/%Y"` is implemented via the standard civil-from-days
    calendar algorithm, producing zero-padded date strings.
  * Prices and dividend amounts are `Rat`.
  * A pandas `DataFrame` is a list of typed rows; `merge(how='outer',
    on='Date')` is a full outer join keyed on the date string, left rows in
    order with their matches, then unmatched right rows (matching the join
    primitive's row multiplicity; row order for ties is incidental per the
    source).
  * Fallible steps (`pd.DataFrame` on unequal column lengths, dict/field
    access that can raise, a non-200 HTTP response returning `None`) are
    modelled with `Option`.
-/

/-- A minimal JSON value model for the provider payloads: numbers, strings,
objects (ordered key/value lists, as Python dicts preserve insertion order)
and arrays. -/
inductive Json where
  | num : Rat → Json
  | str : String → Json
  | obj : List (String × Json) → Json
  | arr : List Json → Json

namespace Json

/-- Object subscript `j[k]`: look the key up, `none` when absent or when `j` is
not an object (Python would raise `KeyError` / `TypeError`). -/
def get : Json → String → Option Json
  | obj kvs, k => (kvs.find? (fun kv => kv.1 = k)).map (fun kv => kv.2)
  | _, _ => none

/-- Array subscript `j[i]`: positional access, `none` out of range or when `j`
is not an array. -/
def idx : Json → Nat → Option Json
  | arr xs, i => xs.get? i
  | _, _ => none

end Json

/-- Chained subscripting `j[k1][k2]...[kn]`: `none` as soon as a key is
missing (in Python the corresponding access raises). -/
def getPath (j : Json) (path : List String) : Option Json :=
  path.foldl (fun a k => a.bind (fun x => x.get k)) (some j)

/-- Civil date from a day count relative to 1970-01-01 (proleptic Gregorian
calendar), returning (year, month, day). -/
def civilFromDays (z : Int) : Int × Nat × Nat :=
  let z' := z + 719468
  let era := Int.fdiv z' 146097
  let doe := (z' - era * 146097).toNat
  let yoe := (doe - doe / 1460 + doe / 36524 - doe / 146096) / 365
  let doy := doe - (365 * yoe + yoe / 4 - yoe / 100)
  let mp := (5 * doy + 2) / 153
  let d := doy - (153 * mp + 2) / 5 + 1
  let m := if mp < 10 then mp + 3 else mp - 9
  (era * 400 + yoe + (if m ≤ 2 then 1 else 0), m, d)

/-- Zero-pad a numeral to two digits (strftime `%m`, `%d`). -/
def pad2 (n : Nat) : String :=
  if n < 10 then "0" ++ toString n else toString n

/-- Zero-pad a numeral to four digits (strftime `%Y`). -/
def pad4 (n : Nat) : String :=
  if n < 10 then "000" ++ toString n
  else if n < 100 then "00" ++ toString n
  else if n < 1000 then "0" ++ toString n
  else toString n

/-- Python `datetime.fromtimestamp(ts).strftime('%m/%d/%Y')` under local-time-zone
offset `tz` (seconds east of UTC). -/
def tsToDateStr (tz : Int) (ts : Nat) : String :=
  let days := Int.fdiv ((ts : Int) + tz) 86400
  let ymd := civilFromDays days
  pad2 ymd.2.1 ++ "/" ++ pad2 ymd.2.2 ++ "/" ++ pad4 ymd.1.toNat

/-- One dividend-event record of the history payload
(`events.dividends[key] = {date, amount}`). -/
structure DivEvent where
  date : Nat
  amount : Rat
deriving DecidableEq, Repr

/-- The fields of the history payload that the parsing code reads:
`chart.result[0].timestamp`, `...indicators.quote[0].open` / `close`, and the
`events.dividends` mapping (its records in dict iteration order). -/
structure HistPayload where
  timestamp : List Nat
  opens : List Rat
  closes : List Rat
  dividends : List DivEvent
deriving DecidableEq, Repr

/-- A row of the trading-day table `df_hist` (columns Date, Open, Close). -/
structure HistRow where
  Date : String
  Open : Rat
  Close : Rat
deriving DecidableEq, Repr

/-- A row of the dividend table `df_div` (columns Date, Dividend Amount). -/
structure DivRow where
  Date : String
  DividendAmount : Rat
deriving DecidableEq, Repr

/-- A row of the merged table `df_master`; Open/Close/Dividend Amount are
nullable after the outer join. -/
structure MergedRow where
  Date : String
  Open : Option Rat
  Close : Option Rat
  DividendAmount : Option Rat
deriving DecidableEq, Repr

namespace Stock

/-- Source `parse_timestamp`: convert each trading-day epoch timestamp to a calendar
date string `%m/%d/%Y` in the local time zone. -/
def parse_timestamp (tz : Int) (p : HistPayload) : List String :=
  p.timestamp.map (tsToDateStr tz)

/-- Source `parse_values`: the parallel open and close price lists. -/
def parse_values (p : HistPayload) : List Rat × List Rat :=
  (p.opens, p.closes)

/-- Source `parse_dividends`: convert each dividend event's timestamp to the same
date format, producing the dividend table (Date, Dividend Amount). -/
def parse_dividends (tz : Int) (p : HistPayload) : List DivRow :=
  p.dividends.map (fun e => ⟨tsToDateStr tz e.date, e.amount⟩)

/-- Constructor call `pd.DataFrame` over the Date/Open/Close columns: zip the three
parallel columns into rows; raises (`none`) when the column lengths differ. -/
def mkHistDF (tz : Int) (p : HistPayload) : Option (List HistRow) :=
  if p.timestamp.length = p.opens.length ∧ p.timestamp.length = p.closes.length then
    some ((parse_timestamp tz p).zipWith (fun d oc => ⟨d, oc.1, oc.2⟩)
      (p.opens.zip p.closes))
  else
    none

/-- The rows the outer join emits for one left (trading-day) row: one paired
row per matching dividend row, or a single row with a null Dividend Amount
when no dividend row shares the date. -/
def mergeLeftRow (div : List DivRow) (l : HistRow) : List MergedRow :=
  if (div.filter (fun r => r.Date = l.Date)).isEmpty then
    [⟨l.Date, some l.Open, some l.Close, none⟩]
  else
    (div.filter (fun r => r.Date = l.Date)).map
      (fun r => ⟨l.Date, some l.Open, some l.Close, some r.DividendAmount⟩)

/-- The rows of the outer join coming from the right (dividend) table alone:
dividend rows whose date matches no trading-day row, with null Open/Close. -/
def rightOnlyRows (hist : List HistRow) (div : List DivRow) : List MergedRow :=
  (div.filter (fun r => hist.all (fun l => l.Date ≠ r.Date))).map
    (fun r => ⟨r.Date, none, none, some r.DividendAmount⟩)

/-- Merge call `df_hist.merge(df_div, how='outer', on='Date')`: every left row paired
with its date matches (null Dividend Amount if none), then the right rows
whose date matches no left row, with null Open/Close. -/
def outerMerge (hist : List HistRow) (div : List DivRow) : List MergedRow :=
  hist.flatMap (mergeLeftRow div) ++ rightOnlyRows hist div

/-- Fill step `df_master['Dividend Amount'].fillna(0)`: replace a null dividend amount
with 0, leaving the other columns untouched. -/
def fillDividend (rows : List MergedRow) : List MergedRow :=
  rows.map (fun r => ⟨r.Date, r.Open, r.Close, some (r.DividendAmount.getD 0)⟩)

/-- The merge step of `create_hist_df` (line 200 of the source): the outer
join of the trading-day table and the dividend table on Date, before the
dividend fill. `none` when the trading-day table cannot be built (unequal
column lengths). -/
def merge_step (tz : Int) (p : HistPayload) : Option (List MergedRow) :=
  (mkHistDF tz p).map (fun hist => outerMerge hist (parse_dividends tz p))

/-- Source `create_hist_df`: build the trading-day table, outer-join it with the
dividend table on Date, and fill null dividend amounts with 0. `none` when
the trading-day table cannot be built (unequal column lengths). -/
def create_hist_df (tz : Int) (p : HistPayload) : Option (List MergedRow) :=
  (merge_step tz p).map fillDividend

/-- The 21 output keys of `parse_statistics` with the fixed extraction path
of each, in the order of the source's dict literal. -/
def statPaths : List (String × List String) :=
  [("payout_ratio", ["summaryDetail", "payoutRatio", "raw"]),
   ("dividend_rate", ["summaryDetail", "dividendRate", "raw"]),
   ("beta", ["summaryDetail", "beta", "raw"]),
   ("trailing_pe", ["summaryDetail", "trailingPE", "raw"]),
   ("forward_pe", ["summaryDetail", "forwardPE", "raw"]),
   ("five_year_avg_div_yield", ["summaryDetail", "fiveYearAvgDividendYield", "raw"]),
   ("div_yield", ["summaryDetail", "dividendYield", "raw"]),
   ("forward_eps", ["defaultKeyStatistics", "forwardEps", "raw"]),
   ("trailing_eps", ["defaultKeyStatistics", "trailingEps", "raw"]),
   ("ebitda_margins", ["financialData", "ebitdaMargins", "raw"]),
   ("profit_margins", ["financialData", "profitMargins", "raw"]),
   ("gross_margins", ["financialData", "grossMargins", "raw"]),
   ("op_cashflow", ["financialData", "operatingCashflow", "raw"]),
   ("revenue_growth", ["financialData", "revenueGrowth", "raw"]),
   ("operating_margins", ["financialData", "operatingMargins", "raw"]),
   ("gross_profits", ["financialData", "grossProfits", "raw"]),
   ("free_cashflow", ["financialData", "freeCashflow", "raw"]),
   ("earnings_growth", ["financialData", "earningsGrowth", "raw"]),
   ("page_short_term_trend", ["pageViews", "shortTermTrend"]),
   ("page_mid_term_trend", ["pageViews", "midTermTrend"]),
   ("page_long_term_trend", ["pageViews", "longTermTrend"])]

/-- The seven `summaryDetail` entries of the `parse_statistics` dict literal,
in source order; any missing key raises (`none`). -/
def parse_statistics_summary (s : Json) : Option (List (String × Json)) :=
  (getPath s ["summaryDetail", "payoutRatio", "raw"]).bind fun payout_ratio =>
  (getPath s ["summaryDetail", "dividendRate", "raw"]).bind fun dividend_rate =>
  (getPath s ["summaryDetail", "beta", "raw"]).bind fun beta =>
  (getPath s ["summaryDetail", "trailingPE", "raw"]).bind fun trailing_pe =>
  (getPath s ["summaryDetail", "forwardPE", "raw"]).bind fun forward_pe =>
  (getPath s ["summaryDetail", "fiveYearAvgDividendYield", "raw"]).bind fun five_year =>
  (getPath s ["summaryDetail", "dividendYield", "raw"]).bind fun div_yield =>
  some [("payout_ratio", payout_ratio),
        ("dividend_rate", dividend_rate),
        ("beta", beta),
        ("trailing_pe", trailing_pe),
        ("forward_pe", forward_pe),
        ("five_year_avg_div_yield", five_year),
        ("div_yield", div_yield)]

/-- The two `defaultKeyStatistics` entries of the `parse_statistics` dict
literal, in source order. -/
def parse_statistics_keystats (s : Json) : Option (List (String × Json)) :=
  (getPath s ["defaultKeyStatistics", "forwardEps", "raw"]).bind fun forward_eps =>
  (getPath s ["defaultKeyStatistics", "trailingEps", "raw"]).bind fun trailing_eps =>
  some [("forward_eps", forward_eps),
        ("trailing_eps", trailing_eps)]

/-- The nine `financialData` entries of the `parse_statistics` dict literal,
in source order. -/
def parse_statistics_financial (s : Json) : Option (List (String × Json)) :=
  (getPath s ["financialData", "ebitdaMargins", "raw"]).bind fun ebitda_margins =>
  (getPath s ["financialData", "profitMargins", "raw"]).bind fun profit_margins =>
  (getPath s ["financialData", "grossMargins", "raw"]).bind fun gross_margins =>
  (getPath s ["financialData", "operatingCashflow", "raw"]).bind fun op_cashflow =>
  (getPath s ["financialData", "revenueGrowth", "raw"]).bind fun revenue_growth =>
  (getPath s ["financialData", "operatingMargins", "raw"]).bind fun operating_margins =>
  (getPath s ["financialData", "grossProfits", "raw"]).bind fun gross_profits =>
  (getPath s ["financialData", "freeCashflow", "raw"]).bind fun free_cashflow =>
  (getPath s ["financialData", "earningsGrowth", "raw"]).bind fun earnings_growth =>
  some [("ebitda_margins", ebitda_margins),
        ("profit_margins", profit_margins),
        ("gross_margins", gross_margins),
        ("op_cashflow", op_cashflow),
        ("revenue_growth", revenue_growth),
        ("operating_margins", operating_margins),
        ("gross_profits", gross_profits),
        ("free_cashflow", free_cashflow),
        ("earnings_growth", earnings_growth)]

/-- The three `pageViews` entries of the `parse_statistics` dict literal, in
source order (these have no trailing `raw` component). -/
def parse_statistics_pageviews (s : Json) : Option (List (String × Json)) :=
  (getPath s ["pageViews", "shortTermTrend"]).bind fun page_short =>
  (getPath s ["pageViews", "midTermTrend"]).bind fun page_mid =>
  (getPath s ["pageViews", "longTermTrend"]).bind fun page_long =>
  some [("page_short_term_trend", page_short),
        ("page_mid_term_trend", page_mid),
        ("page_long_term_trend", page_long)]

/-- Source `parse_statistics`: the dict literal of 21 chained subscript lookups into
the statistics payload, assembled from its four contiguous payload groups in
source order; any missing key anywhere raises (`none`, no partial dict). -/
def parse_statistics (s : Json) : Option (List (String × Json)) :=
  (parse_statistics_summary s).bind fun a =>
  (parse_statistics_keystats s).bind fun b =>
  (parse_statistics_financial s).bind fun c =>
  (parse_statistics_pageviews s).map fun d => a ++ b ++ c ++ d

/-- Source `fetch_stock_histories`: return the parsed response body on a 200 status,
`None` otherwise. -/
def fetch_stock_histories (status : Nat) (content : Json) : Option Json :=
  if status = 200 then some content else none

/-- Source `fetch_stock_statistics`: return the parsed response body on a 200
status, `None` otherwise. -/
def fetch_stock_statistics (status : Nat) (content : Json) : Option Json :=
  if status = 200 then some content else none

/-- Source `fetch_stock_first_trade_date`: on a 200 status extract
`chart.result[0].meta.firstTradeDate` from the body, `None` otherwise. -/
def fetch_stock_first_trade_date (status : Nat) (content : Json) : Option Json :=
  if status = 200 then
    ((((content.get "chart").bind (fun x => x.get "result")).bind
      (fun x => x.idx 0)).bind (fun x => x.get "meta")).bind
      (fun x => x.get "firstTradeDate")
  else none

/-- Source `parse_timestamp` applied to the stored payload `self._jsonHistData`:
subscripting an absent (`None`) payload fails. -/
def parse_timestamp_of (payload : Option Json) : Option Json :=
  payload.bind (fun j =>
    (((j.get "chart").bind (fun x => x.get "result")).bind
      (fun x => x.idx 0)).bind (fun x => x.get "timestamp"))

/-- Source `parse_values` applied to the stored payload: subscripting an absent
(`None`) payload fails. -/
def parse_values_of (payload : Option Json) : Option (Json × Json) :=
  payload.bind (fun j =>
    (((((j.get "chart").bind (fun x => x.get "result")).bind
      (fun x => x.idx 0)).bind (fun x => x.get "indicators")).bind
      (fun x => x.get "quote")).bind (fun x => x.idx 0)) |>.bind (fun q =>
        (q.get "open").bind (fun o => (q.get "close").map (fun c => (o, c))))

/-- Source `parse_dividends` applied to the stored payload: subscripting an absent
(`None`) payload fails. -/
def parse_dividends_of (payload : Option Json) : Option Json :=
  payload.bind (fun j =>
    ((((j.get "chart").bind (fun x => x.get "result")).bind
      (fun x => x.idx 0)).bind (fun x => x.get "events")).bind
      (fun x => x.get "dividends"))

/-- Source `parse_statistics` applied to the stored payload `self._jsonStatData`:
subscripting an absent (`None`) payload fails. -/
def parse_statistics_of (payload : Option Json) : Option (List (String × Json)) :=
  payload.bind parse_statistics

end Stock

/-- A payload with one trading day (2023-01-03), a second trading day
(2023-01-04) and one dividend event on a third, dividend-only day
(2023-01-05): all dates distinct. -/
def histSample : HistPayload :=
  ⟨[1672704000, 1672790400], [10.0, 10.5], [10.2, 10.6], [⟨1672876800, 0.25⟩]⟩

/-- A payload in which the same timestamp occurs twice in the trading-day
sequence, so one trading date yields two rows. -/
def histDup : HistPayload := ⟨[0, 0], [1, 1], [2, 2], []⟩

/-- The spec's scenario payload: trading days 2023-01-03 and 2023-01-04 with
opens 10.0/10.5 and closes 10.2/10.6, and one dividend event of 0.25 on
2023-01-04. -/
def histScenario : HistPayload :=
  ⟨[1672704000, 1672790400], [10.0, 10.5], [10.2, 10.6], [⟨1672790400, 0.25⟩]⟩

/-- A payload with two dividend events on the same date as its single
trading day. -/
def histDivDup : HistPayload := ⟨[0], [1], [2], [⟨0, 0.25⟩, ⟨0, 0.5⟩]⟩

/-- A complete statistics payload: every one of the 21 extraction paths is
present. -/
def sampleStat : Json :=
  Json.obj [
    ("summaryDetail", Json.obj [
      ("payoutRatio", Json.obj [("raw", Json.num 45)]),
      ("dividendRate", Json.obj [("raw", Json.num 2)]),
      ("beta", Json.obj [("raw", Json.num 1)]),
      ("trailingPE", Json.obj [("raw", Json.num 15)]),
      ("forwardPE", Json.obj [("raw", Json.num 14)]),
      ("fiveYearAvgDividendYield", Json.obj [("raw", Json.num 3)]),
      ("dividendYield", Json.obj [("raw", Json.num 2)])]),
    ("defaultKeyStatistics", Json.obj [
      ("forwardEps", Json.obj [("raw", Json.num 5)]),
      ("trailingEps", Json.obj [("raw", Json.num 4)])]),
    ("financialData", Json.obj [
      ("ebitdaMargins", Json.obj [("raw", Json.num 30)]),
      ("profitMargins", Json.obj [("raw", Json.num 20)]),
      ("grossMargins", Json.obj [("raw", Json.num 40)]),
      ("operatingCashflow", Json.obj [("raw", Json.num 1000)]),
      ("revenueGrowth", Json.obj [("raw", Json.num 7)]),
      ("operatingMargins", Json.obj [("raw", Json.num 25)]),
      ("grossProfits", Json.obj [("raw", Json.num 900)]),
      ("freeCashflow", Json.obj [("raw", Json.num 800)]),
      ("earningsGrowth", Json.obj [("raw", Json.num 6)])]),
    ("pageViews", Json.obj [
      ("shortTermTrend", Json.str "UP"),
      ("midTermTrend", Json.str "UP"),
      ("longTermTrend", Json.str "UP")])]

/-- The column of converted trading dates (the Date column of `df_hist`). -/
def tradingDates (tz : Int) (p : HistPayload) : List String :=
  Stock.parse_timestamp tz p

/-- The Date column of the dividend table `df_div`. -/
def divDates (tz : Int) (p : HistPayload) : List String :=
  (Stock.parse_dividends tz p).map DivRow.Date

/-- How many rows of a merged table carry a given date. -/
def countDate (d : String) (rows : List MergedRow) : Nat :=
  (rows.filter (fun r => r.Date = d)).length

section MergeLemmas

open Stock

/-- Every row emitted for a left row by the outer join carries that row's
date. -/
lemma mem_mergeLeftRow_date {div : List DivRow} {l : HistRow} {r : MergedRow}
    (h : r ∈ mergeLeftRow div l) : r.Date = l.Date := by
  unfold mergeLeftRow at h
  split at h
  · rw [List.eq_of_mem_singleton h]
  · obtain ⟨x, _, rfl⟩ := List.mem_map.mp h
    rfl

/-- Among elements with pairwise-distinct keys, at most one has a given
key. -/
lemma filter_key_length_le {α : Type} (k : α → String) (d : String) (xs : List α)
    (h : (xs.map k).Nodup) : (xs.filter (fun x => k x = d)).length ≤ 1 := by
  induction xs with
  | nil => simp
  | cons x xs ih =>
    rw [List.map_cons, List.nodup_cons] at h
    by_cases hx : k x = d
    · rw [List.filter_cons, if_pos (by simpa using hx)]
      have hnil : xs.filter (fun y => k y = d) = [] := by
        rw [List.filter_eq_nil_iff]
        intro a ha hp
        have had : k a = d := by simpa using hp
        exact h.1 (by rw [hx, ← had]; exact List.mem_map_of_mem k ha)
      simp [hnil]
    · rw [List.filter_cons, if_neg (by simpa using hx)]
      exact ih h.2

/-- An element with the given key makes the key's filter nonempty. -/
lemma filter_key_length_pos {α : Type} (k : α → String) (d : String) (xs : List α)
    (h : d ∈ xs.map k) : 0 < (xs.filter (fun x => k x = d)).length := by
  obtain ⟨a, ha, rfl⟩ := List.mem_map.mp h
  have : a ∈ xs.filter (fun x => k x = k a) := List.mem_filter.mpr ⟨ha, by simp⟩
  exact List.length_pos.mpr (List.ne_nil_of_mem this)

/-- With pairwise-distinct keys, a key that occurs is matched by exactly one
element. -/
lemma filter_key_length_eq_one {α : Type} (k : α → String) (d : String)
    (xs : List α) (hn : (xs.map k).Nodup) (hm : d ∈ xs.map k) :
    (xs.filter (fun x => k x = d)).length = 1 :=
  le_antisymm (filter_key_length_le k d xs hn) (filter_key_length_pos k d xs hm)

/-- With pairwise-distinct dividend dates, the outer join emits exactly one
row per left row. -/
lemma length_mergeLeftRow (div : List DivRow) (l : HistRow)
    (hd : (div.map DivRow.Date).Nodup) : (mergeLeftRow div l).length = 1 := by
  unfold mergeLeftRow
  by_cases he : (div.filter (fun r => r.Date = l.Date)).isEmpty
  · rw [if_pos he]
    rfl
  · rw [if_neg he, List.length_map]
    have hle := filter_key_length_le DivRow.Date l.Date div hd
    have hne : (div.filter (fun r => r.Date = l.Date)).length ≠ 0 := by
      simpa [List.isEmpty_iff, List.length_eq_zero] using he
    omega

/-- Row counts per date add over list append. -/
lemma countDate_append (d : String) (a b : List MergedRow) :
    countDate d (a ++ b) = countDate d a + countDate d b := by
  simp [countDate, List.filter_append]

/-- With pairwise-distinct dividend dates, one left row contributes exactly
one row with its own date (and none with any other date). -/
lemma countDate_mergeLeftRow (div : List DivRow) (l : HistRow) (d : String)
    (hd : (div.map DivRow.Date).Nodup) :
    countDate d (mergeLeftRow div l) = if l.Date = d then 1 else 0 := by
  by_cases hld : l.Date = d
  · rw [if_pos hld]
    have heq : (mergeLeftRow div l).filter (fun r => r.Date = d) = mergeLeftRow div l :=
      List.filter_eq_self.mpr (fun r hr => by
        simp [(mem_mergeLeftRow_date hr).trans hld])
    rw [countDate, heq, length_mergeLeftRow div l hd]
  · rw [if_neg hld]
    have heq : (mergeLeftRow div l).filter (fun r => r.Date = d) = [] :=
      List.filter_eq_nil_iff.mpr (fun r hr hp =>
        hld ((mem_mergeLeftRow_date hr).symm.trans (by simpa using hp)))
    simp [countDate, heq]

/-- With pairwise-distinct dividend dates, the left part of the outer join
has exactly as many rows with a given date as the trading-day table. -/
lemma countDate_flatMap (hist : List HistRow) (div : List DivRow) (d : String)
    (hd : (div.map DivRow.Date).Nodup) :
    countDate d (hist.flatMap (mergeLeftRow div)) =
      (hist.filter (fun l => l.Date = d)).length := by
  induction hist with
  | nil => rfl
  | cons l hist ih =>
    rw [List.flatMap_cons, countDate_append, ih,
      countDate_mergeLeftRow div l d hd, List.filter_cons]
    by_cases hld : l.Date = d
    · simp [hld, Nat.add_comm]
    · simp [hld]

end MergeLemmas

section MergeLemmasTwo

open Stock

/-- The right-only part of the outer join contributes no row whose date is a
trading date, and for any other date exactly the dividend rows carrying it. -/
lemma countDate_rightOnlyRows (hist : List HistRow) (div : List DivRow)
    (d : String) :
    countDate d (rightOnlyRows hist div) =
      if d ∈ hist.map HistRow.Date then 0
      else (div.filter (fun r => r.Date = d)).length := by
  rw [countDate, ← List.countP_eq_length_filter, rightOnlyRows,
    List.countP_map, List.countP_filter]
  by_cases hmem : d ∈ hist.map HistRow.Date
  · rw [if_pos hmem]
    rw [List.countP_eq_zero]
    intro r _ hp
    obtain ⟨l, hl, hld⟩ := List.mem_map.mp hmem
    simp only [Function.comp_apply, Bool.and_eq_true, decide_eq_true_eq,
      List.all_eq_true, decide_not] at hp
    exact absurd (hld.trans hp.1.symm) (by simpa using hp.2 l hl)
  · rw [if_neg hmem, ← List.countP_eq_length_filter]
    apply List.countP_congr
    intro r _
    simp only [Function.comp_apply, Bool.and_eq_true, decide_eq_true_eq,
      List.all_eq_true, decide_not]
    constructor
    · exact fun h => h.1
    · intro hrd
      refine ⟨hrd, fun l hl => ?_⟩
      have : l.Date ≠ d := fun he => hmem (he ▸ List.mem_map_of_mem HistRow.Date hl)
      simpa [hrd] using this
  
/-- Membership in the left part of the outer join. -/
lemma mem_flatMap_date {hist : List HistRow} {div : List DivRow}
    {r : MergedRow} (h : r ∈ hist.flatMap (mergeLeftRow div)) :
    r.Date ∈ hist.map HistRow.Date := by
  obtain ⟨l, hl, hr⟩ := List.mem_flatMap.mp h
  rw [mem_mergeLeftRow_date hr]
  exact List.mem_map_of_mem HistRow.Date hl

/-- Rows of the right-only part carry a dividend date, null prices, and the
dividend's amount. -/
lemma mem_rightOnlyRows {hist : List HistRow} {div : List DivRow}
    {r : MergedRow} (h : r ∈ rightOnlyRows hist div) :
    ∃ x ∈ div, r = ⟨x.Date, none, none, some x.DividendAmount⟩ ∧
      ∀ l ∈ hist, l.Date ≠ x.Date := by
  obtain ⟨x, hx, rfl⟩ := List.mem_map.mp h
  have hx' := List.mem_filter.mp hx
  refine ⟨x, hx'.1, rfl, ?_⟩
  have := hx'.2
  simpa [List.all_eq_true] using this

/-- A row of the outer join whose date appears in no dividend row has a null
Dividend Amount. -/
lemma mem_outerMerge_div_none {hist : List HistRow} {div : List DivRow}
    {r : MergedRow} (h : r ∈ outerMerge hist div)
    (hnd : r.Date ∉ div.map DivRow.Date) : r.DividendAmount = none := by
  rcases List.mem_append.mp h with hleft | hright
  · obtain ⟨l, _, hr⟩ := List.mem_flatMap.mp hleft
    have hdate := mem_mergeLeftRow_date hr
    unfold mergeLeftRow at hr
    split at hr
    · rw [List.eq_of_mem_singleton hr]
    · obtain ⟨x, hx, rfl⟩ := List.mem_map.mp hr
      have hx' := List.mem_filter.mp hx
      exact absurd (by
        have hxd : x.Date = l.Date := by simpa using hx'.2
        rw [hdate, ← hxd]
        exact List.mem_map_of_mem DivRow.Date hx'.1) hnd
  · obtain ⟨x, hx, rfl, _⟩ := mem_rightOnlyRows hright
    exact absurd (List.mem_map_of_mem DivRow.Date hx) (by simpa using hnd)

/-- Every row of the outer join carries either a trading date or a dividend
date. -/
lemma mem_outerMerge_date {hist : List HistRow} {div : List DivRow}
    {r : MergedRow} (h : r ∈ outerMerge hist div) :
    r.Date ∈ hist.map HistRow.Date ∨ r.Date ∈ div.map DivRow.Date := by
  rcases List.mem_append.mp h with hleft | hright
  · exact Or.inl (mem_flatMap_date hleft)
  · obtain ⟨x, hx, rfl, _⟩ := mem_rightOnlyRows hright
    exact Or.inr (List.mem_map_of_mem DivRow.Date hx)

end MergeLemmasTwo

section TableLemmas

open Stock

/-- A key that occurs nowhere matches no element. -/
lemma filter_key_length_zero {α : Type} (k : α → String) (d : String)
    (xs : List α) (h : d ∉ xs.map k) :
    (xs.filter (fun x => k x = d)).length = 0 := by
  rw [List.length_eq_zero, List.filter_eq_nil_iff]
  intro a ha hp
  have had : k a = d := by simpa using hp
  exact h (had ▸ List.mem_map_of_mem k ha)

/-- Zipping a date column with a price column keeps the date column. -/
lemma map_date_zipWith (ds : List String) (ps : List (Rat × Rat))
    (h : ds.length ≤ ps.length) :
    ((ds.zipWith (fun d oc => HistRow.mk d oc.1 oc.2) ps).map HistRow.Date) = ds := by
  induction ds generalizing ps with
  | nil => simp
  | cons d ds ih =>
    cases ps with
    | nil => simp at h
    | cons q ps =>
      simp only [List.zipWith_cons_cons, List.map_cons, List.length_cons] at h ⊢
      exact congrArg (d :: ·) (ih ps (by omega))

/-- Unfolding a successful trading-day table construction. -/
lemma mkHistDF_eq_some {tz : Int} {p : HistPayload} {hist : List HistRow}
    (h : mkHistDF tz p = some hist) :
    hist = (parse_timestamp tz p).zipWith (fun d oc => ⟨d, oc.1, oc.2⟩)
        (p.opens.zip p.closes) ∧
      p.timestamp.length = p.opens.length ∧
      p.timestamp.length = p.closes.length := by
  unfold mkHistDF at h
  split at h
  · exact ⟨(Option.some_inj.mp h).symm, by assumption⟩
  · cases h

/-- The Date column of a successfully built trading-day table is exactly the
converted timestamp sequence. -/
lemma mkHistDF_dates {tz : Int} {p : HistPayload} {hist : List HistRow}
    (h : mkHistDF tz p = some hist) :
    hist.map HistRow.Date = tradingDates tz p := by
  obtain ⟨rfl, h1, h2⟩ := mkHistDF_eq_some h
  apply map_date_zipWith
  rw [List.length_zip]
  simp [parse_timestamp, ← h1, ← h2]

/-- A successfully built trading-day table has one row per input
timestamp. -/
lemma mkHistDF_length {tz : Int} {p : HistPayload} {hist : List HistRow}
    (h : mkHistDF tz p = some hist) : hist.length = p.timestamp.length := by
  obtain ⟨rfl, h1, h2⟩ := mkHistDF_eq_some h
  rw [List.length_zipWith, List.length_zip]
  simp [parse_timestamp, ← h1, ← h2]

/-- Membership in the filled table. -/
lemma mem_fillDividend {rows : List MergedRow} {r : MergedRow} :
    r ∈ fillDividend rows ↔
      ∃ x ∈ rows, r = ⟨x.Date, x.Open, x.Close, some (x.DividendAmount.getD 0)⟩ := by
  simp only [fillDividend, List.mem_map]
  constructor
  · rintro ⟨x, hx, rfl⟩
    exact ⟨x, hx, rfl⟩
  · rintro ⟨x, hx, rfl⟩
    exact ⟨x, hx, rfl⟩

/-- The dividend fill does not change how many rows carry a date. -/
lemma countDate_fillDividend (d : String) (rows : List MergedRow) :
    countDate d (fillDividend rows) = countDate d rows := by
  rw [countDate, countDate, ← List.countP_eq_length_filter,
    ← List.countP_eq_length_filter, fillDividend, List.countP_map]
  congr 1

/-- With pairwise-distinct dividend dates, a left row with a dividend match
merges into the single row pairing its prices with the dividend amount. -/
lemma mergeLeftRow_of_match {div : List DivRow} {l : HistRow} {e : DivRow}
    (hd : (div.map DivRow.Date).Nodup) (he : e ∈ div) (hdate : e.Date = l.Date) :
    mergeLeftRow div l = [⟨l.Date, some l.Open, some l.Close, some e.DividendAmount⟩] := by
  have hmem : e ∈ div.filter (fun r => r.Date = l.Date) :=
    List.mem_filter.mpr ⟨he, by simp [hdate]⟩
  have hlen : (div.filter (fun r => r.Date = l.Date)).length = 1 :=
    filter_key_length_eq_one DivRow.Date l.Date div hd
      (hdate ▸ List.mem_map_of_mem DivRow.Date he)
  obtain ⟨a, ha⟩ := List.length_eq_one.mp hlen
  have hea : e = a := by
    rw [ha] at hmem
    exact List.eq_of_mem_singleton hmem
  unfold mergeLeftRow
  rw [ha, if_neg (by simp), ← hea]
  rfl

/-- A left row with no dividend match merges into the single row with a null
Dividend Amount. -/
lemma mergeLeftRow_of_no_match {div : List DivRow} {l : HistRow}
    (h : l.Date ∉ div.map DivRow.Date) :
    mergeLeftRow div l = [⟨l.Date, some l.Open, some l.Close, none⟩] := by
  have hnil : div.filter (fun r => r.Date = l.Date) = [] := by
    rw [← List.length_eq_zero]
    exact filter_key_length_zero DivRow.Date l.Date div h
  unfold mergeLeftRow
  rw [hnil, if_pos (by simp)]

end TableLemmas

section OuterMergeCount

open Stock

/-- Per-date row count of the outer join, assuming pairwise-distinct dividend
dates: the trading-day rows carrying the date, plus — only when the date is
not a trading date — the dividend rows carrying it. -/
lemma countDate_outerMerge (hist : List HistRow) (div : List DivRow)
    (d : String) (hd : (div.map DivRow.Date).Nodup) :
    countDate d (outerMerge hist div) =
      (hist.filter (fun l => l.Date = d)).length +
        (if d ∈ hist.map HistRow.Date then 0
         else (div.filter (fun r => r.Date = d)).length) := by
  rw [outerMerge, countDate_append, countDate_flatMap hist div d hd,
    countDate_rightOnlyRows]

/-- A successful merge step comes from a successfully built trading-day
table. -/
lemma merge_step_eq_some {tz : Int} {p : HistPayload} {rows : List MergedRow}
    (h : merge_step tz p = some rows) :
    ∃ hist, mkHistDF tz p = some hist ∧
      rows = outerMerge hist (parse_dividends tz p) := by
  unfold merge_step at h
  obtain ⟨hist, hh, hr⟩ := Option.map_eq_some'.mp h
  exact ⟨hist, hh, hr.symm⟩

end OuterMergeCount

/-- C1: for every history payload whose converted trading dates are
pairwise distinct and whose converted dividend dates are pairwise distinct,
the merged price/dividend table (before the dividend fill) is a full outer
join on Date: every trading date and every dividend date appears exactly
once, every row's date is a trading or dividend date, and a date present in
only one side carries nulls for the other side's columns. -/
theorem C1_full_outer_join (tz : Int) (p : HistPayload) (rows : List MergedRow)
    (h : Stock.merge_step tz p = some rows)
    (h1 : (tradingDates tz p).Nodup) (h2 : (divDates tz p).Nodup) :
    (∀ d, d ∈ tradingDates tz p ∨ d ∈ divDates tz p → countDate d rows = 1) ∧
    (∀ r ∈ rows, r.Date ∈ tradingDates tz p ∨ r.Date ∈ divDates tz p) ∧
    (∀ r ∈ rows, r.Date ∉ divDates tz p → r.DividendAmount = none) ∧
    (∀ r ∈ rows, r.Date ∉ tradingDates tz p → r.Open = none ∧ r.Close = none) := by
  obtain ⟨hist, hh, rfl⟩ := merge_step_eq_some h
  have hdates : hist.map HistRow.Date = tradingDates tz p := mkHistDF_dates hh
  have hdiv : (Stock.parse_dividends tz p).map DivRow.Date = divDates tz p := rfl
  have hdd : ((Stock.parse_dividends tz p).map DivRow.Date).Nodup := hdiv ▸ h2
  refine ⟨?_, ?_, ?_, ?_⟩
  · intro d hd
    rw [countDate_outerMerge hist (Stock.parse_dividends tz p) d hdd, hdates]
    by_cases hmem : d ∈ tradingDates tz p
    · rw [if_pos hmem, filter_key_length_eq_one HistRow.Date d hist
        (hdates ▸ h1) (hdates ▸ hmem)]
    · rcases hd with hd | hd
      · exact absurd hd hmem
      · rw [if_neg hmem,
          filter_key_length_zero HistRow.Date d hist (by rw [hdates]; exact hmem),
          filter_key_length_eq_one DivRow.Date d (Stock.parse_dividends tz p)
            hdd (hdiv ▸ hd)]
  · intro r hr
    rcases mem_outerMerge_date hr with hmem | hmem
    · exact Or.inl (hdates ▸ hmem)
    · exact Or.inr (hdiv ▸ hmem)
  · intro r hr hnd
    exact mem_outerMerge_div_none hr (by rw [hdiv]; exact hnd)
  · intro r hr hnt
    rcases List.mem_append.mp hr with hleft | hright
    · exact absurd (hdates ▸ mem_flatMap_date hleft) hnt
    · obtain ⟨x, _, rfl, _⟩ := mem_rightOnlyRows hright
      exact ⟨rfl, rfl⟩

/-- Witness for C1: the distinct-dates hypotheses hold for `histSample` and
the outer-join shape follows. -/
theorem C1_full_outer_join_witness :
    Stock.merge_step 0 histSample =
      some [⟨"01/03/2023", some 10.0, some 10.2, none⟩,
            ⟨"01/04/2023", some 10.5, some 10.6, none⟩,
            ⟨"01/05/2023", none, none, some 0.25⟩] ∧
    (tradingDates 0 histSample).Nodup ∧ (divDates 0 histSample).Nodup ∧
    ((∀ d, d ∈ tradingDates 0 histSample ∨ d ∈ divDates 0 histSample →
        countDate d [⟨"01/03/2023", some 10.0, some 10.2, none⟩,
          ⟨"01/04/2023", some 10.5, some 10.6, none⟩,
          ⟨"01/05/2023", none, none, some 0.25⟩] = 1) ∧
      (∀ r ∈ [(⟨"01/03/2023", some 10.0, some 10.2, none⟩ : MergedRow),
          ⟨"01/04/2023", some 10.5, some 10.6, none⟩,
          ⟨"01/05/2023", none, none, some 0.25⟩],
        r.Date ∈ tradingDates 0 histSample ∨ r.Date ∈ divDates 0 histSample) ∧
      (∀ r ∈ [(⟨"01/03/2023", some 10.0, some 10.2, none⟩ : MergedRow),
          ⟨"01/04/2023", some 10.5, some 10.6, none⟩,
          ⟨"01/05/2023", none, none, some 0.25⟩],
        r.Date ∉ divDates 0 histSample → r.DividendAmount = none) ∧
      (∀ r ∈ [(⟨"01/03/2023", some 10.0, some 10.2, none⟩ : MergedRow),
          ⟨"01/04/2023", some 10.5, some 10.6, none⟩,
          ⟨"01/05/2023", none, none, some 0.25⟩],
        r.Date ∉ tradingDates 0 histSample → r.Open = none ∧ r.Close = none)) :=
  ⟨by rfl, by decide, by decide,
    C1_full_outer_join 0 histSample
      [⟨"01/03/2023", some 10.0, some 10.2, none⟩,
       ⟨"01/04/2023", some 10.5, some 10.6, none⟩,
       ⟨"01/05/2023", none, none, some 0.25⟩]
      (by rfl) (by decide) (by decide)⟩

/-- Counterexample to C1 as stated over all history payloads: for a payload
whose trading-day sequence repeats a timestamp, the trading date
`01/01/1970` appears twice in the merged table, not exactly once. -/
theorem C1_counterexample :
    Stock.merge_step 0 histDup =
      some [⟨"01/01/1970", some 1, some 2, none⟩,
            ⟨"01/01/1970", some 1, some 2, none⟩] ∧
    "01/01/1970" ∈ tradingDates 0 histDup ∧
    countDate "01/01/1970" [(⟨"01/01/1970", some 1, some 2, none⟩ : MergedRow),
      ⟨"01/01/1970", some 1, some 2, none⟩] ≠ 1 :=
  ⟨by rfl, by decide, by decide⟩

section FillLemmas

open Stock

/-- A successful `create_hist_df` is the dividend-filled outer join of a
successfully built trading-day table with the dividend table. -/
lemma create_hist_df_eq_some {tz : Int} {p : HistPayload} {rows : List MergedRow}
    (h : create_hist_df tz p = some rows) :
    ∃ hist, mkHistDF tz p = some hist ∧
      rows = fillDividend (outerMerge hist (parse_dividends tz p)) := by
  unfold create_hist_df at h
  obtain ⟨rows0, h0, hr⟩ := Option.map_eq_some'.mp h
  obtain ⟨hist, hh, rfl⟩ := merge_step_eq_some h0
  exact ⟨hist, hh, hr.symm⟩

end FillLemmas

/-- C2: in the merged-and-filled table, every row's Dividend Amount is
non-null, and a row whose date matches no dividend event carries exactly 0. -/
theorem C2_dividend_fill_zero (tz : Int) (p : HistPayload)
    (rows : List MergedRow) (h : Stock.create_hist_df tz p = some rows) :
    (∀ r ∈ rows, r.DividendAmount ≠ none) ∧
    (∀ r ∈ rows, r.Date ∉ divDates tz p → r.DividendAmount = some 0) := by
  obtain ⟨hist, hh, rfl⟩ := create_hist_df_eq_some h
  constructor
  · intro r hr
    obtain ⟨x, _, rfl⟩ := mem_fillDividend.mp hr
    simp
  · intro r hr hnd
    obtain ⟨x, hx, rfl⟩ := mem_fillDividend.mp hr
    have hxnone : x.DividendAmount = none :=
      mem_outerMerge_div_none hx (by exact hnd)
    simp [hxnone]

/-- Witness for C2 at `histSample`: the two trading dates carry Dividend
Amount 0 and the dividend-only date keeps its amount. -/
theorem C2_dividend_fill_zero_witness :
    Stock.create_hist_df 0 histSample =
      some [⟨"01/03/2023", some 10.0, some 10.2, some 0⟩,
            ⟨"01/04/2023", some 10.5, some 10.6, some 0⟩,
            ⟨"01/05/2023", none, none, some 0.25⟩] ∧
    ((∀ r ∈ [(⟨"01/03/2023", some 10.0, some 10.2, some 0⟩ : MergedRow),
        ⟨"01/04/2023", some 10.5, some 10.6, some 0⟩,
        ⟨"01/05/2023", none, none, some 0.25⟩], r.DividendAmount ≠ none) ∧
      (∀ r ∈ [(⟨"01/03/2023", some 10.0, some 10.2, some 0⟩ : MergedRow),
        ⟨"01/04/2023", some 10.5, some 10.6, some 0⟩,
        ⟨"01/05/2023", none, none, some 0.25⟩],
        r.Date ∉ divDates 0 histSample → r.DividendAmount = some 0)) :=
  ⟨by rfl,
    C2_dividend_fill_zero 0 histSample
      [⟨"01/03/2023", some 10.0, some 10.2, some 0⟩,
       ⟨"01/04/2023", some 10.5, some 10.6, some 0⟩,
       ⟨"01/05/2023", none, none, some 0.25⟩] (by rfl)⟩

/-- C7: a dividend date outside the trading dates yields a merged row, every
merged row with that date has null Open and Close, and (only) the Dividend
Amount column is null-free after reshaping. -/
theorem C7_dividend_only_null_prices (tz : Int) (p : HistPayload)
    (rows : List MergedRow) (h : Stock.create_hist_df tz p = some rows)
    (d : String) (hd : d ∈ divDates tz p) (hnt : d ∉ tradingDates tz p) :
    (∃ r ∈ rows, r.Date = d) ∧
    (∀ r ∈ rows, r.Date = d → r.Open = none ∧ r.Close = none) ∧
    (∀ r ∈ rows, r.DividendAmount ≠ none) := by
  obtain ⟨hist, hh, rfl⟩ := create_hist_df_eq_some h
  have hdates : hist.map HistRow.Date = tradingDates tz p := mkHistDF_dates hh
  refine ⟨?_, ?_, ?_⟩
  · obtain ⟨x, hx, rfl⟩ := List.mem_map.mp hd
    have hall : x ∈ (Stock.parse_dividends tz p).filter
        (fun r => hist.all (fun l => l.Date ≠ r.Date)) :=
      List.mem_filter.mpr ⟨hx, by
        simp only [List.all_eq_true, decide_not]
        intro l hl
        have : l.Date ≠ x.Date := fun he =>
          hnt (he ▸ hdates ▸ List.mem_map_of_mem HistRow.Date hl)
        simpa using this⟩
    refine ⟨⟨x.Date, none, none, some (x.DividendAmount)⟩, ?_, rfl⟩
    have hro : (⟨x.Date, none, none, some x.DividendAmount⟩ : MergedRow) ∈
        Stock.rightOnlyRows hist (Stock.parse_dividends tz p) :=
      List.mem_map_of_mem _ hall
    have hom : (⟨x.Date, none, none, some x.DividendAmount⟩ : MergedRow) ∈
        Stock.outerMerge hist (Stock.parse_dividends tz p) :=
      List.mem_append.mpr (Or.inr hro)
    exact List.mem_map_of_mem _ hom
  · intro r hr hrd
    obtain ⟨x, hx, rfl⟩ := mem_fillDividend.mp hr
    have hxd : x.Date = d := hrd
    rcases List.mem_append.mp hx with hleft | hright
    · exact absurd (hxd ▸ hdates ▸ mem_flatMap_date hleft) hnt
    · obtain ⟨y, _, rfl, _⟩ := mem_rightOnlyRows hright
      exact ⟨rfl, rfl⟩
  · intro r hr
    obtain ⟨x, _, rfl⟩ := mem_fillDividend.mp hr
    simp

/-- Witness for C7 at `histSample`: the dividend-only date 01/05/2023. -/
theorem C7_dividend_only_null_prices_witness :
    Stock.create_hist_df 0 histSample =
      some [⟨"01/03/2023", some 10.0, some 10.2, some 0⟩,
            ⟨"01/04/2023", some 10.5, some 10.6, some 0⟩,
            ⟨"01/05/2023", none, none, some 0.25⟩] ∧
    "01/05/2023" ∈ divDates 0 histSample ∧
    "01/05/2023" ∉ tradingDates 0 histSample ∧
    ((∃ r ∈ [(⟨"01/03/2023", some 10.0, some 10.2, some 0⟩ : MergedRow),
        ⟨"01/04/2023", some 10.5, some 10.6, some 0⟩,
        ⟨"01/05/2023", none, none, some 0.25⟩], r.Date = "01/05/2023") ∧
      (∀ r ∈ [(⟨"01/03/2023", some 10.0, some 10.2, some 0⟩ : MergedRow),
        ⟨"01/04/2023", some 10.5, some 10.6, some 0⟩,
        ⟨"01/05/2023", none, none, some 0.25⟩],
        r.Date = "01/05/2023" → r.Open = none ∧ r.Close = none) ∧
      (∀ r ∈ [(⟨"01/03/2023", some 10.0, some 10.2, some 0⟩ : MergedRow),
        ⟨"01/04/2023", some 10.5, some 10.6, some 0⟩,
        ⟨"01/05/2023", none, none, some 0.25⟩], r.DividendAmount ≠ none)) :=
  ⟨by rfl, by decide, by decide,
    C7_dividend_only_null_prices 0 histSample
      [⟨"01/03/2023", some 10.0, some 10.2, some 0⟩,
       ⟨"01/04/2023", some 10.5, some 10.6, some 0⟩,
       ⟨"01/05/2023", none, none, some 0.25⟩]
      (by rfl) "01/05/2023" (by decide) (by decide)⟩

/-- C3 (amended general part, plus the spec's scenario): when the converted
trading dates and converted dividend dates are each pairwise distinct, a
dividend event whose date equals a trading date yields exactly one merged
row for that date, carrying the dividend amount with that trading day's open
and close; and the spec's concrete scenario evaluates to exactly the
expected two-row table. -/
theorem C3_matching_dividend_row :
    (∀ (tz : Int) (p : HistPayload) (rows : List MergedRow) (hist : List HistRow),
      Stock.create_hist_df tz p = some rows →
      Stock.mkHistDF tz p = some hist →
      (tradingDates tz p).Nodup → (divDates tz p).Nodup →
      ∀ l ∈ hist, ∀ e ∈ Stock.parse_dividends tz p, e.Date = l.Date →
        countDate l.Date rows = 1 ∧
        (⟨l.Date, some l.Open, some l.Close, some e.DividendAmount⟩ : MergedRow) ∈ rows) ∧
    Stock.create_hist_df 0 histScenario =
      some [⟨"01/03/2023", some 10.0, some 10.2, some 0⟩,
            ⟨"01/04/2023", some 10.5, some 10.6, some 0.25⟩] := by
  constructor
  · intro tz p rows hist h hh h1 h2 l hl e he hde
    obtain ⟨hist2, hh2, rfl⟩ := create_hist_df_eq_some h
    rw [hh] at hh2
    obtain rfl : hist = hist2 := Option.some_inj.mp hh2
    have hdates : hist.map HistRow.Date = tradingDates tz p := mkHistDF_dates hh
    have hdiv : (Stock.parse_dividends tz p).map DivRow.Date = divDates tz p := rfl
    have hdd : ((Stock.parse_dividends tz p).map DivRow.Date).Nodup := hdiv ▸ h2
    constructor
    · rw [countDate_fillDividend,
        countDate_outerMerge hist (Stock.parse_dividends tz p) l.Date hdd,
        if_pos (hdates ▸ List.mem_map_of_mem HistRow.Date hl),
        filter_key_length_eq_one HistRow.Date l.Date hist (hdates ▸ h1)
          (List.mem_map_of_mem HistRow.Date hl)]
    · have hrow : Stock.mergeLeftRow (Stock.parse_dividends tz p) l =
          [⟨l.Date, some l.Open, some l.Close, some e.DividendAmount⟩] :=
        mergeLeftRow_of_match hdd he hde
      have hmem : (⟨l.Date, some l.Open, some l.Close, some e.DividendAmount⟩ : MergedRow) ∈
          hist.flatMap (Stock.mergeLeftRow (Stock.parse_dividends tz p)) :=
        List.mem_flatMap.mpr ⟨l, hl, by rw [hrow]; exact List.mem_singleton_self _⟩
      have hom : (⟨l.Date, some l.Open, some l.Close, some e.DividendAmount⟩ : MergedRow) ∈
          Stock.outerMerge hist (Stock.parse_dividends tz p) :=
        List.mem_append.mpr (Or.inl hmem)
      exact List.mem_map_of_mem _ hom
  · rfl

/-- Witness for C3: the general part applied at the spec's scenario payload,
where the dividend event of 0.25 falls on the trading date 01/04/2023. -/
theorem C3_matching_dividend_row_witness :
    Stock.create_hist_df 0 histScenario =
      some [⟨"01/03/2023", some 10.0, some 10.2, some 0⟩,
            ⟨"01/04/2023", some 10.5, some 10.6, some 0.25⟩] ∧
    Stock.mkHistDF 0 histScenario =
      some [⟨"01/03/2023", 10.0, 10.2⟩, ⟨"01/04/2023", 10.5, 10.6⟩] ∧
    (tradingDates 0 histScenario).Nodup ∧ (divDates 0 histScenario).Nodup ∧
    (⟨"01/04/2023", 10.5, 10.6⟩ : HistRow) ∈
      [(⟨"01/03/2023", 10.0, 10.2⟩ : HistRow), ⟨"01/04/2023", 10.5, 10.6⟩] ∧
    (⟨"01/04/2023", 0.25⟩ : DivRow) ∈ Stock.parse_dividends 0 histScenario ∧
    (DivRow.Date ⟨"01/04/2023", 0.25⟩ = HistRow.Date ⟨"01/04/2023", 10.5, 10.6⟩) ∧
    (countDate (HistRow.Date ⟨"01/04/2023", 10.5, 10.6⟩)
        [⟨"01/03/2023", some 10.0, some 10.2, some 0⟩,
         ⟨"01/04/2023", some 10.5, some 10.6, some 0.25⟩] = 1 ∧
      (⟨HistRow.Date ⟨"01/04/2023", 10.5, 10.6⟩, some (HistRow.Open ⟨"01/04/2023", 10.5, 10.6⟩),
          some (HistRow.Close ⟨"01/04/2023", 10.5, 10.6⟩),
          some (DivRow.DividendAmount ⟨"01/04/2023", 0.25⟩)⟩ : MergedRow) ∈
        [⟨"01/03/2023", some 10.0, some 10.2, some 0⟩,
         ⟨"01/04/2023", some 10.5, some 10.6, some 0.25⟩]) :=
  ⟨by rfl, by rfl, by decide, by decide, by simp, by simp only [Stock.parse_dividends, histScenario, List.map_cons, List.map_nil]; exact List.mem_singleton.mpr (by rfl), by rfl,
    C3_matching_dividend_row.1 0 histScenario
      [⟨"01/03/2023", some 10.0, some 10.2, some 0⟩,
       ⟨"01/04/2023", some 10.5, some 10.6, some 0.25⟩]
      [⟨"01/03/2023", 10.0, 10.2⟩, ⟨"01/04/2023", 10.5, 10.6⟩]
      (by rfl) (by rfl) (by decide) (by decide)
      ⟨"01/04/2023", 10.5, 10.6⟩ (by simp)
      ⟨"01/04/2023", 0.25⟩ (by simp only [Stock.parse_dividends, histScenario, List.map_cons, List.map_nil]; exact List.mem_singleton.mpr (by rfl)) (by rfl)⟩

/-- Counterexample to C3 as stated over all history payloads: with two
dividend events on the single trading date, the merged table has two rows
for that date, not exactly one. -/
theorem C3_counterexample :
    Stock.create_hist_df 0 histDivDup =
      some [⟨"01/01/1970", some 1, some 2, some 0.25⟩,
            ⟨"01/01/1970", some 1, some 2, some 0.5⟩] ∧
    "01/01/1970" ∈ tradingDates 0 histDivDup ∧
    "01/01/1970" ∈ divDates 0 histDivDup ∧
    countDate "01/01/1970" [(⟨"01/01/1970", some 1, some 2, some 0.25⟩ : MergedRow),
      ⟨"01/01/1970", some 1, some 2, some 0.5⟩] ≠ 1 :=
  ⟨by rfl, by decide, by decide, by decide⟩

/-- C6: for a valid non-empty trading-date sequence of pairwise-distinct
timestamps (with parallel columns of matching length), the trading-day table
has exactly one row per input timestamp, and its Date column is exactly the
timestamps converted to `%m/%d/%Y` date strings in the local time zone. -/
theorem C6_trading_day_dates (tz : Int) (p : HistPayload) (hist : List HistRow)
    (hne : p.timestamp ≠ []) (hnd : p.timestamp.Nodup)
    (h : Stock.mkHistDF tz p = some hist) :
    hist.length = p.timestamp.length ∧
    hist.map HistRow.Date = p.timestamp.map (tsToDateStr tz) :=
  ⟨mkHistDF_length h, mkHistDF_dates h⟩

/-- Witness for C6 at `histSample`. -/
theorem C6_trading_day_dates_witness :
    histSample.timestamp ≠ [] ∧ histSample.timestamp.Nodup ∧
    Stock.mkHistDF 0 histSample =
      some [⟨"01/03/2023", 10.0, 10.2⟩, ⟨"01/04/2023", 10.5, 10.6⟩] ∧
    ([(⟨"01/03/2023", 10.0, 10.2⟩ : HistRow), ⟨"01/04/2023", 10.5, 10.6⟩].length =
        histSample.timestamp.length ∧
      [(⟨"01/03/2023", 10.0, 10.2⟩ : HistRow), ⟨"01/04/2023", 10.5, 10.6⟩].map
          HistRow.Date = histSample.timestamp.map (tsToDateStr 0)) :=
  ⟨by decide, by decide, by rfl,
    C6_trading_day_dates 0 histSample
      [⟨"01/03/2023", 10.0, 10.2⟩, ⟨"01/04/2023", 10.5, 10.6⟩]
      (by decide) (by decide) (by rfl)⟩

/-- C10: when any two of the three parallel columns (timestamps, opens,
closes) differ in length, the trading-day table construction fails and no
merged table is produced at all. -/
theorem C10_unequal_lengths (tz : Int) (p : HistPayload)
    (h : p.timestamp.length ≠ p.opens.length ∨
      p.timestamp.length ≠ p.closes.length ∨
      p.opens.length ≠ p.closes.length) :
    Stock.mkHistDF tz p = none ∧ Stock.create_hist_df tz p = none := by
  have hcond : ¬(p.timestamp.length = p.opens.length ∧
      p.timestamp.length = p.closes.length) := by
    rintro ⟨ha, hb⟩
    rcases h with h | h | h <;> omega
  have hdf : Stock.mkHistDF tz p = none := by
    unfold Stock.mkHistDF
    rw [if_neg hcond]
  exact ⟨hdf, by simp [Stock.create_hist_df, Stock.merge_step, hdf]⟩

/-- Witness for C10: a payload with one timestamp but empty price columns. -/
theorem C10_unequal_lengths_witness :
    (HistPayload.mk [0] [] [] []).timestamp.length ≠
        (HistPayload.mk [0] [] [] []).opens.length ∧
    (Stock.mkHistDF 0 ⟨[0], [], [], []⟩ = none ∧
      Stock.create_hist_df 0 ⟨[0], [], [], []⟩ = none) :=
  ⟨by decide, C10_unequal_lengths 0 ⟨[0], [], [], []⟩ (Or.inl (by decide))⟩

/-- C5: a non-success transport status makes every fetch return an absent
(`None`) payload — including the first-trade-date lookup — and every
downstream parsing step applied to that absent payload fails with the
missing-data result (`none`) rather than any distinct declared error. -/
theorem C5_transport_failure (status : Nat) (content : Json)
    (h : status ≠ 200) :
    Stock.fetch_stock_histories status content = none ∧
    Stock.fetch_stock_statistics status content = none ∧
    Stock.fetch_stock_first_trade_date status content = none ∧
    Stock.parse_timestamp_of (Stock.fetch_stock_histories status content) = none ∧
    Stock.parse_values_of (Stock.fetch_stock_histories status content) = none ∧
    Stock.parse_dividends_of (Stock.fetch_stock_histories status content) = none ∧
    Stock.parse_statistics_of (Stock.fetch_stock_statistics status content) = none := by
  have h1 : Stock.fetch_stock_histories status content = none := by
    unfold Stock.fetch_stock_histories
    rw [if_neg h]
  have h2 : Stock.fetch_stock_statistics status content = none := by
    unfold Stock.fetch_stock_statistics
    rw [if_neg h]
  have h3 : Stock.fetch_stock_first_trade_date status content = none := by
    unfold Stock.fetch_stock_first_trade_date
    rw [if_neg h]
  exact ⟨h1, h2, h3,
    by rw [h1]; rfl, by rw [h1]; rfl, by rw [h1]; rfl, by rw [h2]; rfl⟩

/-- Witness for C5: a 404 response. -/
theorem C5_transport_failure_witness :
    (404 : Nat) ≠ 200 ∧
    (Stock.fetch_stock_histories 404 (Json.obj []) = none ∧
      Stock.fetch_stock_statistics 404 (Json.obj []) = none ∧
      Stock.fetch_stock_first_trade_date 404 (Json.obj []) = none ∧
      Stock.parse_timestamp_of (Stock.fetch_stock_histories 404 (Json.obj [])) = none ∧
      Stock.parse_values_of (Stock.fetch_stock_histories 404 (Json.obj [])) = none ∧
      Stock.parse_dividends_of (Stock.fetch_stock_histories 404 (Json.obj [])) = none ∧
      Stock.parse_statistics_of (Stock.fetch_stock_statistics 404 (Json.obj [])) = none) :=
  ⟨by decide, C5_transport_failure 404 (Json.obj []) (by decide)⟩

/-- C9: the reshaping operations are pure functions of their payload inputs:
equal history payloads give byte-identical merged tables, and equal
statistics payloads give identical flat mappings, on repeated runs. -/
theorem C9_reshaping_deterministic (tz : Int) (p q : HistPayload) (s t : Json)
    (hp : p = q) (hs : s = t) :
    Stock.create_hist_df tz p = Stock.create_hist_df tz q ∧
    Stock.parse_statistics s = Stock.parse_statistics t := by
  subst hp
  subst hs
  exact ⟨rfl, rfl⟩

/-- Witness for C9 at `histSample` and an empty statistics payload. -/
theorem C9_reshaping_deterministic_witness :
    histSample = histSample ∧ Json.obj [] = Json.obj [] ∧
    (Stock.create_hist_df 0 histSample = Stock.create_hist_df 0 histSample ∧
      Stock.parse_statistics (Json.obj []) = Stock.parse_statistics (Json.obj [])) :=
  ⟨rfl, rfl, C9_reshaping_deterministic 0 histSample histSample
    (Json.obj []) (Json.obj []) rfl rfl⟩

/-- C4: for a statistics payload in which every one of the 21 fixed
extraction paths is present, flattening succeeds and yields the mapping with
exactly the 21 specified keys, each bound to the raw value found at its
path (pure field extraction, no transformation). -/
theorem C4_statistics_complete (s : Json)
    (h : ∀ kp ∈ Stock.statPaths, (getPath s kp.2).isSome = true) :
    ∃ m, Stock.parse_statistics s = some m ∧
      m.map Prod.fst = Stock.statPaths.map Prod.fst ∧
      ∀ kp ∈ Stock.statPaths, ∀ v, getPath s kp.2 = some v → (kp.1, v) ∈ m := by
  obtain ⟨v1, e1⟩ := Option.isSome_iff_exists.mp (h ("payout_ratio", ["summaryDetail", "payoutRatio", "raw"]) (by decide))
  obtain ⟨v2, e2⟩ := Option.isSome_iff_exists.mp (h ("dividend_rate", ["summaryDetail", "dividendRate", "raw"]) (by decide))
  obtain ⟨v3, e3⟩ := Option.isSome_iff_exists.mp (h ("beta", ["summaryDetail", "beta", "raw"]) (by decide))
  obtain ⟨v4, e4⟩ := Option.isSome_iff_exists.mp (h ("trailing_pe", ["summaryDetail", "trailingPE", "raw"]) (by decide))
  obtain ⟨v5, e5⟩ := Option.isSome_iff_exists.mp (h ("forward_pe", ["summaryDetail", "forwardPE", "raw"]) (by decide))
  obtain ⟨v6, e6⟩ := Option.isSome_iff_exists.mp (h ("five_year_avg_div_yield", ["summaryDetail", "fiveYearAvgDividendYield", "raw"]) (by decide))
  obtain ⟨v7, e7⟩ := Option.isSome_iff_exists.mp (h ("div_yield", ["summaryDetail", "dividendYield", "raw"]) (by decide))
  obtain ⟨v8, e8⟩ := Option.isSome_iff_exists.mp (h ("forward_eps", ["defaultKeyStatistics", "forwardEps", "raw"]) (by decide))
  obtain ⟨v9, e9⟩ := Option.isSome_iff_exists.mp (h ("trailing_eps", ["defaultKeyStatistics", "trailingEps", "raw"]) (by decide))
  obtain ⟨v10, e10⟩ := Option.isSome_iff_exists.mp (h ("ebitda_margins", ["financialData", "ebitdaMargins", "raw"]) (by decide))
  obtain ⟨v11, e11⟩ := Option.isSome_iff_exists.mp (h ("profit_margins", ["financialData", "profitMargins", "raw"]) (by decide))
  obtain ⟨v12, e12⟩ := Option.isSome_iff_exists.mp (h ("gross_margins", ["financialData", "grossMargins", "raw"]) (by decide))
  obtain ⟨v13, e13⟩ := Option.isSome_iff_exists.mp (h ("op_cashflow", ["financialData", "operatingCashflow", "raw"]) (by decide))
  obtain ⟨v14, e14⟩ := Option.isSome_iff_exists.mp (h ("revenue_growth", ["financialData", "revenueGrowth", "raw"]) (by decide))
  obtain ⟨v15, e15⟩ := Option.isSome_iff_exists.mp (h ("operating_margins", ["financialData", "operatingMargins", "raw"]) (by decide))
  obtain ⟨v16, e16⟩ := Option.isSome_iff_exists.mp (h ("gross_profits", ["financialData", "grossProfits", "raw"]) (by decide))
  obtain ⟨v17, e17⟩ := Option.isSome_iff_exists.mp (h ("free_cashflow", ["financialData", "freeCashflow", "raw"]) (by decide))
  obtain ⟨v18, e18⟩ := Option.isSome_iff_exists.mp (h ("earnings_growth", ["financialData", "earningsGrowth", "raw"]) (by decide))
  obtain ⟨v19, e19⟩ := Option.isSome_iff_exists.mp (h ("page_short_term_trend", ["pageViews", "shortTermTrend"]) (by decide))
  obtain ⟨v20, e20⟩ := Option.isSome_iff_exists.mp (h ("page_mid_term_trend", ["pageViews", "midTermTrend"]) (by decide))
  obtain ⟨v21, e21⟩ := Option.isSome_iff_exists.mp (h ("page_long_term_trend", ["pageViews", "longTermTrend"]) (by decide))
  have hsum : Stock.parse_statistics_summary s = some [("payout_ratio", v1),
      ("dividend_rate", v2),
      ("beta", v3),
      ("trailing_pe", v4),
      ("forward_pe", v5),
      ("five_year_avg_div_yield", v6),
      ("div_yield", v7)] := by
    unfold Stock.parse_statistics_summary
    rw [e1, e2, e3, e4, e5, e6, e7]
    rfl
  have hkey : Stock.parse_statistics_keystats s = some [("forward_eps", v8),
      ("trailing_eps", v9)] := by
    unfold Stock.parse_statistics_keystats
    rw [e8, e9]
    rfl
  have hfin : Stock.parse_statistics_financial s = some [("ebitda_margins", v10),
      ("profit_margins", v11),
      ("gross_margins", v12),
      ("op_cashflow", v13),
      ("revenue_growth", v14),
      ("operating_margins", v15),
      ("gross_profits", v16),
      ("free_cashflow", v17),
      ("earnings_growth", v18)] := by
    unfold Stock.parse_statistics_financial
    rw [e10, e11, e12, e13, e14, e15, e16, e17, e18]
    rfl
  have hpv : Stock.parse_statistics_pageviews s = some [("page_short_term_trend", v19),
      ("page_mid_term_trend", v20),
      ("page_long_term_trend", v21)] := by
    unfold Stock.parse_statistics_pageviews
    rw [e19, e20, e21]
    rfl
  refine ⟨[("payout_ratio", v1),
      ("dividend_rate", v2),
      ("beta", v3),
      ("trailing_pe", v4),
      ("forward_pe", v5),
      ("five_year_avg_div_yield", v6),
      ("div_yield", v7),
      ("forward_eps", v8),
      ("trailing_eps", v9),
      ("ebitda_margins", v10),
      ("profit_margins", v11),
      ("gross_margins", v12),
      ("op_cashflow", v13),
      ("revenue_growth", v14),
      ("operating_margins", v15),
      ("gross_profits", v16),
      ("free_cashflow", v17),
      ("earnings_growth", v18),
      ("page_short_term_trend", v19),
      ("page_mid_term_trend", v20),
      ("page_long_term_trend", v21)], ?_, rfl, ?_⟩
  · unfold Stock.parse_statistics
    rw [hsum, hkey, hfin, hpv]
    rfl
  · intro kp hkp v hv
    simp only [Stock.statPaths, List.mem_cons, List.not_mem_nil, or_false] at hkp
    rcases hkp with rfl|rfl|rfl|rfl|rfl|rfl|rfl|rfl|rfl|rfl|rfl|rfl|rfl|rfl|rfl|rfl|rfl|rfl|rfl|rfl|rfl
    · rw [e1] at hv
      obtain rfl := Option.some_inj.mp hv
      simp
    · rw [e2] at hv
      obtain rfl := Option.some_inj.mp hv
      simp
    · rw [e3] at hv
      obtain rfl := Option.some_inj.mp hv
      simp
    · rw [e4] at hv
      obtain rfl := Option.some_inj.mp hv
      simp
    · rw [e5] at hv
      obtain rfl := Option.some_inj.mp hv
      simp
    · rw [e6] at hv
      obtain rfl := Option.some_inj.mp hv
      simp
    · rw [e7] at hv
      obtain rfl := Option.some_inj.mp hv
      simp
    · rw [e8] at hv
      obtain rfl := Option.some_inj.mp hv
      simp
    · rw [e9] at hv
      obtain rfl := Option.some_inj.mp hv
      simp
    · rw [e10] at hv
      obtain rfl := Option.some_inj.mp hv
      simp
    · rw [e11] at hv
      obtain rfl := Option.some_inj.mp hv
      simp
    · rw [e12] at hv
      obtain rfl := Option.some_inj.mp hv
      simp
    · rw [e13] at hv
      obtain rfl := Option.some_inj.mp hv
      simp
    · rw [e14] at hv
      obtain rfl := Option.some_inj.mp hv
      simp
    · rw [e15] at hv
      obtain rfl := Option.some_inj.mp hv
      simp
    · rw [e16] at hv
      obtain rfl := Option.some_inj.mp hv
      simp
    · rw [e17] at hv
      obtain rfl := Option.some_inj.mp hv
      simp
    · rw [e18] at hv
      obtain rfl := Option.some_inj.mp hv
      simp
    · rw [e19] at hv
      obtain rfl := Option.some_inj.mp hv
      simp
    · rw [e20] at hv
      obtain rfl := Option.some_inj.mp hv
      simp
    · rw [e21] at hv
      obtain rfl := Option.some_inj.mp hv
      simp

/-- Witness for C4 at the complete payload `sampleStat`. -/
theorem C4_statistics_complete_witness :
    (∀ kp ∈ Stock.statPaths, (getPath sampleStat kp.2).isSome = true) ∧
    (∃ m, Stock.parse_statistics sampleStat = some m ∧
      m.map Prod.fst = Stock.statPaths.map Prod.fst ∧
      ∀ kp ∈ Stock.statPaths, ∀ v, getPath sampleStat kp.2 = some v → (kp.1, v) ∈ m) :=
  ⟨by decide, C4_statistics_complete sampleStat (by decide)⟩

/-- Binding an option against a constantly failing continuation fails. -/
lemma option_bind_const_none {α β : Type} (x : Option α) :
    (x.bind fun _ => (none : Option β)) = none := by
  cases x <;> rfl

/-- A failing summary-detail group fails the whole flattening. -/
lemma parse_statistics_none_of_summary (s : Json)
    (h : Stock.parse_statistics_summary s = none) :
    Stock.parse_statistics s = none := by
  simp [Stock.parse_statistics, h]

/-- A failing key-statistics group fails the whole flattening. -/
lemma parse_statistics_none_of_keystats (s : Json)
    (h : Stock.parse_statistics_keystats s = none) :
    Stock.parse_statistics s = none := by
  simp [Stock.parse_statistics, h, option_bind_const_none]

/-- A failing financial-data group fails the whole flattening. -/
lemma parse_statistics_none_of_financial (s : Json)
    (h : Stock.parse_statistics_financial s = none) :
    Stock.parse_statistics s = none := by
  simp [Stock.parse_statistics, h, option_bind_const_none]

/-- A failing page-views group fails the whole flattening. -/
lemma parse_statistics_none_of_pageviews (s : Json)
    (h : Stock.parse_statistics_pageviews s = none) :
    Stock.parse_statistics s = none := by
  simp [Stock.parse_statistics, h, option_bind_const_none]

/-- C8: if any of the 21 fixed extraction paths is missing from the
statistics payload, the whole flattening fails: no partial mapping and no
default value is produced. -/
theorem C8_statistics_missing_path (s : Json)
    (h : ∃ kp ∈ Stock.statPaths, getPath s kp.2 = none) :
    Stock.parse_statistics s = none := by
  obtain ⟨kp, hkp, hnone⟩ := h
  simp only [Stock.statPaths, List.mem_cons, List.not_mem_nil, or_false] at hkp
  rcases hkp with rfl|rfl|rfl|rfl|rfl|rfl|rfl|rfl|rfl|rfl|rfl|rfl|rfl|rfl|rfl|rfl|rfl|rfl|rfl|rfl|rfl
  · apply parse_statistics_none_of_summary
    simp [Stock.parse_statistics_summary, hnone, option_bind_const_none]
  · apply parse_statistics_none_of_summary
    simp [Stock.parse_statistics_summary, hnone, option_bind_const_none]
  · apply parse_statistics_none_of_summary
    simp [Stock.parse_statistics_summary, hnone, option_bind_const_none]
  · apply parse_statistics_none_of_summary
    simp [Stock.parse_statistics_summary, hnone, option_bind_const_none]
  · apply parse_statistics_none_of_summary
    simp [Stock.parse_statistics_summary, hnone, option_bind_const_none]
  · apply parse_statistics_none_of_summary
    simp [Stock.parse_statistics_summary, hnone, option_bind_const_none]
  · apply parse_statistics_none_of_summary
    simp [Stock.parse_statistics_summary, hnone, option_bind_const_none]
  · apply parse_statistics_none_of_keystats
    simp [Stock.parse_statistics_keystats, hnone, option_bind_const_none]
  · apply parse_statistics_none_of_keystats
    simp [Stock.parse_statistics_keystats, hnone, option_bind_const_none]
  · apply parse_statistics_none_of_financial
    simp [Stock.parse_statistics_financial, hnone, option_bind_const_none]
  · apply parse_statistics_none_of_financial
    simp [Stock.parse_statistics_financial, hnone, option_bind_const_none]
  · apply parse_statistics_none_of_financial
    simp [Stock.parse_statistics_financial, hnone, option_bind_const_none]
  · apply parse_statistics_none_of_financial
    simp [Stock.parse_statistics_financial, hnone, option_bind_const_none]
  · apply parse_statistics_none_of_financial
    simp [Stock.parse_statistics_financial, hnone, option_bind_const_none]
  · apply parse_statistics_none_of_financial
    simp [Stock.parse_statistics_financial, hnone, option_bind_const_none]
  · apply parse_statistics_none_of_financial
    simp [Stock.parse_statistics_financial, hnone, option_bind_const_none]
  · apply parse_statistics_none_of_financial
    simp [Stock.parse_statistics_financial, hnone, option_bind_const_none]
  · apply parse_statistics_none_of_financial
    simp [Stock.parse_statistics_financial, hnone, option_bind_const_none]
  · apply parse_statistics_none_of_pageviews
    simp [Stock.parse_statistics_pageviews, hnone, option_bind_const_none]
  · apply parse_statistics_none_of_pageviews
    simp [Stock.parse_statistics_pageviews, hnone, option_bind_const_none]
  · apply parse_statistics_none_of_pageviews
    simp [Stock.parse_statistics_pageviews, hnone, option_bind_const_none]

/-- Witness for C8: the empty object payload is missing the first path. -/
theorem C8_statistics_missing_path_witness :
    (∃ kp ∈ Stock.statPaths, getPath (Json.obj []) kp.2 = none) ∧
    Stock.parse_statistics (Json.obj []) = none :=
  ⟨⟨("payout_ratio", ["summaryDetail", "payoutRatio", "raw"]), by decide, rfl⟩,
    C8_statistics_missing_path (Json.obj [])
      ⟨("payout_ratio", ["summaryDetail", "payoutRatio", "raw"]), by decide, rfl⟩⟩
